import Mathlib

/-
Shallow embedding of the v3-monitor repository (src/app.py and
src/enregistreur.py), a Streamlit dashboard over the Bordeaux bike-share
feed plus a polling collector.

Conventions of the embedding:
- Wall-clock timestamps are integers counted in minutes, so the
  one-hour retention horizon of app.py (timedelta(hours=1)) is 60.
- A pandas DataFrame of station rows is a Lean list of rows in frame
  order; a JSON object is an association list of string keys.
- Python exceptions are Except values: a try/except block that returns
  an empty frame becomes a match on the Except.
- pandas sort_values(column, ascending=False) is modelled after pandas
  nargsort, which computes the ascending argsort of the column and then
  reverses the whole indexer.  numpy's default quicksort argsort is a
  stable insertion sort only below its small-partition cutoff, so the
  model (a stable ascending sort followed by List.reverse) is one
  deterministic refinement of the program; theorems draw from the tie
  order only what holds regardless (sortedness, permutation, sums,
  membership) plus concrete instances small enough to sit on the
  stable path.
- DataFrame.merge(..., on=key, how=outer) with the default sort=False is
  modelled by its factorize order: keys in order of first appearance in
  the left frame and then in the right frame, with the full cross
  product of matching rows inside one key.
-/

/-- A scalar value found in a JSON properties object of the feed:
either a number (modelled as an integer, the only numbers the code
consumes) or an arbitrary non-numeric value (modelled as a string). -/
inductive PropVal where
  | num (n : Int)
  | str (s : String)
deriving DecidableEq, Repr

/-- A JSON object: an association list from keys to values. -/
abbrev PropDict := List (String × PropVal)

/-- Python dict.get(key, default): the first binding of the key, or the
default when the key is absent. -/
def PropDict.getD (d : PropDict) (k : String) (dflt : PropVal) : PropVal :=
  match d.find? (fun kv => decide (kv.1 = k)) with
  | some kv => kv.2
  | none => dflt

/-- Python dict[key]: the first binding of the key, or a KeyError
(modelled as Except.error) when the key is absent. -/
def PropDict.getKey (d : PropDict) (k : String) : Except Unit PropVal :=
  match d.find? (fun kv => decide (kv.1 = k)) with
  | some kv => Except.ok kv.2
  | none => Except.error ()

/-- The value of a decimal digit character, or none. -/
def charDigit? (c : Char) : Option Nat :=
  if 48 ≤ c.toNat ∧ c.toNat ≤ 57 then some (c.toNat - 48) else none

/-- Accumulate the value of a digit string; none on any non-digit. -/
def digitsVal? : List Char → Nat → Option Nat
  | [], acc => some acc
  | c :: rest, acc =>
    match charDigit? c with
    | some d => digitsVal? rest (acc * 10 + d)
    | none => none

/-- Python int on a string: an optional sign followed by decimal digits;
anything else raises ValueError. -/
def pyStrToInt? (s : String) : Option Int :=
  match s.data with
  | [] => none
  | c :: rest =>
    if c = Char.ofNat 45 then
      match rest with
      | [] => none
      | _ => (digitsVal? rest 0).map (fun n => -(n : Int))
    else if c = Char.ofNat 43 then
      match rest with
      | [] => none
      | _ => (digitsVal? rest 0).map (fun n => (n : Int))
    else (digitsVal? (c :: rest) 0).map (fun n => (n : Int))

/-- Python int(x): the identity on numbers, a parse on numeric strings,
and a ValueError (modelled as Except.error) on non-numeric values. -/
def pyInt : PropVal → Except Unit Int
  | PropVal.num n => Except.ok n
  | PropVal.str s =>
    match pyStrToInt? s with
    | some n => Except.ok n
    | none => Except.error ()

/-- The ways the upstream fetch of app.py line 87-89 or enregistreur.py
line 27-29 can fail: connection error, non-2xx status raised by
raise_for_status, or an unparsable body raised by response.json(). -/
inductive FetchErr where
  | unreachable
  | badStatus (code : Nat)
  | unparsable
deriving DecidableEq, Repr

/-- One GeoJSON feature of the Bordeaux Metropole feed, as read by
get_live_data: a properties object and geometry coordinates. -/
structure RawFeature where
  props : PropDict
  lon : ℚ
  lat : ℚ
deriving DecidableEq

/-- One row of the live DataFrame built by get_live_data
(app.py lines 116-126). -/
structure LiveRow where
  station : PropVal
  total : Int
  elec : Int
  classic : Int
  places : Int
  lat : ℚ
  lon : ℚ
  color : String
  size : Nat
deriving DecidableEq

/-- The per-feature body of the loop in get_live_data (app.py lines
94-126): extract the numeric fields with default 0, raising on a
non-numeric value; compute the map color and size; keep the station only
when it is connected or has bikes or slots. -/
def processFeature (s : RawFeature) : Except Unit (Option LiveRow) := do
  let nom := s.props.getD "nom" (PropVal.str "Inconnue")
  let total ← pyInt (s.props.getD "nbvelos" (PropVal.num 0))
  let elec ← pyInt (s.props.getD "nbelec" (PropVal.num 0))
  let classic ← pyInt (s.props.getD "nbclassiq" (PropVal.num 0))
  let places ← pyInt (s.props.getD "nbplaces" (PropVal.num 0))
  let etat := s.props.getD "etat" (PropVal.str "DECONNECTEE")
  let color := if total = 0 then "#FF0000" else if total < 5 then "#FFA500" else "#005DAA"
  if etat = PropVal.str "CONNECTEE" ∨ total > 0 ∨ places > 0 then
    Except.ok (some { station := nom, total := total, elec := elec, classic := classic,
                      places := places, lat := s.lat, lon := s.lon, color := color,
                      size := if total > 0 then 20 else 10 })
  else
    Except.ok none

/-- get_live_data (app.py lines 84-131).  The whole body runs under one
try/except: a fetch failure, or any exception raised while processing a
feature, discards the partially built row list and returns an empty
DataFrame. -/
def get_live_data (resp : Except FetchErr (List RawFeature)) : List LiveRow :=
  match resp with
  | Except.error _ => []
  | Except.ok stations =>
    match stations.mapM processFeature with
    | Except.ok rows => rows.filterMap id
    | Except.error _ => []

/-- One entry of st.session_state.data_history (app.py lines 144-147):
the collection timestamp and the full-fleet DataFrame of that refresh.
(The timestamp column also added to the stored frame never influences
any output, so it is not duplicated here.) -/
structure HistEntry where
  timestamp : Int
  data : List LiveRow
deriving DecidableEq

/-- The pruning step of calculate_realtime_flux (app.py lines 149-154):
keep only history entries strictly newer than one hour before now. -/
def pruneHistory (now : Int) (history : List HistEntry) : List HistEntry :=
  history.filter (fun h => decide (h.timestamp > now - 60))

/-- First-appearance key dedup, the order in which pandas factorizes the
merge keys of both frames (left keys first, then new right keys). -/
def dedupKeysAux : List PropVal → List PropVal → List PropVal
  | [], _ => []
  | k :: t, seen => if k ∈ seen then dedupKeysAux t seen else k :: dedupKeysAux t (k :: seen)

def dedupKeys (l : List PropVal) : List PropVal := dedupKeysAux l []

/-- The rows one merge key contributes to an outer merge: the cross
product of the matching rows of both frames, or the rows of one frame
paired with none when the key is absent from the other. -/
def mergeBlock (k : PropVal) (ls fs : List LiveRow) :
    List (PropVal × Option Int × Option Int) :=
  match ls, fs with
  | [], fs2 => fs2.map (fun f => (k, none, some f.total))
  | ls2, [] => ls2.map (fun l => (k, some l.total, none))
  | ls2, fs2 => ls2.flatMap (fun l => fs2.map (fun f => (k, some l.total, some f.total)))

/-- last_data.merge(first_data, on=Station, suffixes=(_curr, _prev),
how=outer) restricted to the columns the flux computation reads
(app.py line 164): for each station key, the Total of the current
(left) and previous (right) frame, with none where the station is
absent from one side. -/
def mergeOuter (last_data first_data : List LiveRow) :
    List (PropVal × Option Int × Option Int) :=
  let keys := dedupKeys (last_data.map (fun r => r.station) ++
                         first_data.map (fun r => r.station))
  keys.flatMap (fun k =>
    mergeBlock k (last_data.filter (fun r => decide (r.station = k)))
                 (first_data.filter (fun r => decide (r.station = k))))

/-- One row of the merged frame after the fillna and delta steps of
calculate_realtime_flux (app.py lines 167-172). -/
structure MergedRow where
  station : PropVal
  total_curr : Int
  total_prev : Int
  mouvement : Int
  delta : Int
deriving DecidableEq

/-- app.py lines 164-172: merge the latest and earliest frames, fill
missing totals with 0, and compute Mouvement = |curr - prev| and
Delta = curr - prev. -/
def computeMerged (last_data first_data : List LiveRow) : List MergedRow :=
  (mergeOuter last_data first_data).map (fun kv =>
    let c := kv.2.1.getD 0
    let p := kv.2.2.getD 0
    { station := kv.1, total_curr := c, total_prev := p,
      mouvement := |c - p|, delta := c - p })

/-- One row of the DataFrame returned by calculate_realtime_flux
(columns selected at app.py line 183). -/
structure FluxRow where
  station : PropVal
  type : String
  mouvement : Int
  total_prev : Int
  total_curr : Int
  delta : Int
deriving DecidableEq

/-- app.py line 181: the Type label, a deposit when the delta is
positive, else a withdrawal. -/
def fluxRowOf (m : MergedRow) : FluxRow :=
  { station := m.station,
    type := if m.delta > 0 then "📤 Dépôt" else "📥 Prise",
    mouvement := m.mouvement, total_prev := m.total_prev,
    total_curr := m.total_curr, delta := m.delta }

/-- The ascending comparison pandas sorts the Mouvement column by. -/
def fluxOrder : FluxRow → FluxRow → Prop := fun a b => a.mouvement ≤ b.mouvement

instance : DecidableRel fluxOrder := fun a b => Int.decLe a.mouvement b.mouvement

instance : IsTotal FluxRow fluxOrder := ⟨fun a b => Int.le_total a.mouvement b.mouvement⟩

instance : IsTrans FluxRow fluxOrder := ⟨fun _ _ _ hab hbc => le_trans hab hbc⟩

/-- sort_values(Mouvement, ascending=False) at app.py line 183.  pandas
nargsort computes an ascending argsort of the column with numpy's
default quicksort and reverses the whole indexer for a descending sort;
that argsort is a stable insertion sort below numpy's small-partition
cutoff and makes no promise about tie order above it.  This definition
fixes one deterministic refinement, the reverse of a stable ascending
sort, which is pandas' exact behaviour on small frames; theorems read
off it only order-insensitive consequences (sortedness by magnitude,
permutation, membership, sums) and concrete small instances, never a
universal tie-order law. -/
def sortFluxDesc (rows : List FluxRow) : List FluxRow :=
  (List.insertionSort fluxOrder rows).reverse

/-- app.py lines 164-183, given the first and last frames of the pruned
window: merge, fill, delta, keep the rows that moved, return the empty
frame when none did, else label and sort by Mouvement descending. -/
def computeFluxFrom (last_data first_data : List LiveRow) : List FluxRow :=
  let merged := computeMerged last_data first_data
  let flux := merged.filter (fun r => decide (r.mouvement > 0))
  if flux.isEmpty then []
  else sortFluxDesc (flux.map fluxRowOf)

/-- calculate_realtime_flux (app.py lines 133-183).  The wall clock now
is an explicit argument; the session state history is threaded as the
second component: append the current frame stamped with now, prune the
window to the last hour, and when at least two measurements remain
compare the first and last of them. -/
def calculate_realtime_flux (now : Int) (history : List HistEntry)
    (current_df : List LiveRow) : List FluxRow × List HistEntry :=
  let history2 := pruneHistory now (history ++ [{ timestamp := now, data := current_df }])
  if history2.length < 2 then ([], history2)
  else
    (computeFluxFrom (history2.getLastD { timestamp := 0, data := [] }).data
                     (history2.headD { timestamp := 0, data := [] }).data,
     history2)

/-- The part of calculate_realtime_flux after the wall clock has been
used: a function of the pruned window alone (app.py lines 156-183). -/
def fluxOfWindow (w : List HistEntry) : List FluxRow :=
  if w.length < 2 then []
  else computeFluxFrom (w.getLastD { timestamp := 0, data := [] }).data
                       (w.headD { timestamp := 0, data := [] }).data

/-- tab2 metric (app.py line 325): total movements over the returned
flux frame. -/
def total_mouvements (flux : List FluxRow) : Int := (flux.map (fun r => r.mouvement)).sum

/-- tab1 metric (app.py line 254): total bikes over the live frame. -/
def total_bikes (df : List LiveRow) : Int := (df.map (fun r => r.total)).sum

/-- tab1 metric (app.py line 255): total free slots over the live frame. -/
def total_slots (df : List LiveRow) : Int := (df.map (fun r => r.places)).sum

/-- Division that records an attempted division by zero instead of
taking Lean's division-totalization convention. -/
def checkedDiv (a b : ℚ) : Option ℚ := if b = 0 then none else some (a / b)

/-- tab1 occupancy metric (app.py line 256): the division is evaluated
only under the guard total_bikes + total_slots > 0, else 0. -/
def occupancy (df : List LiveRow) : Option ℚ :=
  if total_bikes df + total_slots df > 0 then
    (checkedDiv ((total_bikes df : ℚ))
                ((total_bikes df : ℚ) + (total_slots df : ℚ))).map (fun x => x * 100)
  else some 0

/-- One row of the stations_history table written by enregistreur.py.
sqlite stores the bound parameters as given, so the station fields keep
their feed values. -/
structure HistRow where
  timestamp : Int
  station_name : PropVal
  free_bikes : PropVal
  empty_slots : PropVal
deriving DecidableEq

/-- The per-station body of the insert loop of save_data
(enregistreur.py lines 39-41): subscript access raises a KeyError on a
missing field. -/
def rowOfStation (now : Int) (s : PropDict) : Except Unit HistRow := do
  let name ← s.getKey "name"
  let fb ← s.getKey "free_bikes"
  let es ← s.getKey "empty_slots"
  Except.ok { timestamp := now, station_name := name, free_bikes := fb, empty_slots := es }

/-- save_data (enregistreur.py lines 24-47).  The whole body runs under
one try/except: a fetch failure, or a KeyError on any station, leaves
the loop before conn.commit(), so none of the executed inserts become
visible and the database is unchanged. -/
def save_data (now : Int) (db : List HistRow)
    (resp : Except FetchErr (List PropDict)) : List HistRow :=
  match resp with
  | Except.error _ => db
  | Except.ok stations =>
    match stations.mapM (rowOfStation now) with
    | Except.ok rows => db ++ rows
    | Except.error _ => db

/-- Modelled from the spec: the persisted-variant movement estimator is
not part of src/ (enregistreur.py only appends rows); spec section 4.3
item 3 defines it over the ordered bike counts of one station as the
sum of absolute consecutive differences.  These are the consecutive
differences in timestamp order. -/
def consecutive_deltas : List Int → List Int
  | a :: b :: t => (b - a) :: consecutive_deltas (b :: t)
  | _ => []

/-- Modelled from the spec: the persisted-variant movement magnitude,
the sum of absolute consecutive differences (spec section 4.3 item 3). -/
def movement_persisted (l : List Int) : Int :=
  ((consecutive_deltas l).map (fun d => |d|)).sum

/-- Modelled from the spec: the two-point net delta of spec section 4.3
item 2, latest bike count minus earliest bike count. -/
def two_point_delta (l : List Int) : Int := l.getLastD 0 - l.headD 0

/-- Modelled from the spec: the two-point movement magnitude of spec
section 4.3 item 2. -/
def two_point_magnitude (l : List Int) : Int := |two_point_delta l|

/-! Concrete inputs used to instantiate the claims below. -/

/-- A live-frame row with the fields the flux computation reads; the
presentation fields take the values get_live_data gives a healthy
connected station. -/
def mkRow (name : String) (tot : Int) : LiveRow :=
  { station := PropVal.str name, total := tot, elec := 0, classic := 0, places := 0,
    lat := 0, lon := 0, color := "#005DAA", size := 20 }

/-- A well-formed connected feed feature with the given bike count. -/
def mkFeat (name : String) (vel : Int) : RawFeature :=
  { props := [("nom", PropVal.str name), ("nbvelos", PropVal.num vel),
              ("etat", PropVal.str "CONNECTEE")],
    lon := 0, lat := 0 }

/-- A well-formed collector station record with the given bike count. -/
def mkStn (name : String) (fb : Int) : PropDict :=
  [("name", PropVal.str name), ("free_bikes", PropVal.num fb),
   ("empty_slots", PropVal.num 2)]

/-- The spec example window for station A: counts 10, then 7, then 12. -/
def c1Hist : List HistEntry :=
  [{ timestamp := 61, data := [mkRow "A" 10] }, { timestamp := 90, data := [mkRow "A" 7] }]

def c1Cur : List LiveRow := [mkRow "A" 12]

/-- A window in which station A has two snapshots (10 then 7) but is
absent from the latest batch, which carries station B instead. -/
def c1BadHist : List HistEntry :=
  [{ timestamp := 70, data := [mkRow "A" 10] }, { timestamp := 80, data := [mkRow "A" 7] }]

def c1BadCur : List LiveRow := [mkRow "B" 3]

/-- Two windows with identical snapshot data under different clocks. -/
def c2W1 : List HistEntry :=
  [{ timestamp := 0, data := [mkRow "A" 1] }, { timestamp := 5, data := [mkRow "A" 2] }]

def c2W2 : List HistEntry :=
  [{ timestamp := 100, data := [mkRow "A" 1] }, { timestamp := 200, data := [mkRow "A" 2] }]

/-- A window in which station A appears in only one batch. -/
def c3Hist : List HistEntry := [{ timestamp := 90, data := [mkRow "B" 3] }]

def c3Cur : List LiveRow := [mkRow "A" 5, mkRow "B" 3]

/-- A window giving stations A, B, C movement magnitudes 5, 5, 3 in that
insertion order. -/
def c6Hist : List HistEntry :=
  [{ timestamp := 90, data := [mkRow "A" 0, mkRow "B" 0, mkRow "C" 0] }]

def c6Cur : List LiveRow := [mkRow "A" 5, mkRow "B" 5, mkRow "C" 3]

/-- A history entry 61 minutes older than the read at time 100. -/
def c7Entry : HistEntry := { timestamp := 39, data := [] }

/-- Five feed features, the third missing its nbvelos field. -/
def c8Features : List RawFeature :=
  [mkFeat "S1" 3, mkFeat "S2" 4,
   { props := [("nom", PropVal.str "S3"), ("etat", PropVal.str "CONNECTEE")],
     lon := 0, lat := 0 },
   mkFeat "S4" 1, mkFeat "S5" 2]

/-- Five feed features, the third carrying a non-numeric nbvelos. -/
def c8BadFeatures : List RawFeature :=
  [mkFeat "S1" 3, mkFeat "S2" 4,
   { props := [("nom", PropVal.str "S3"), ("nbvelos", PropVal.str "abc"),
               ("etat", PropVal.str "CONNECTEE")],
     lon := 0, lat := 0 },
   mkFeat "S4" 1, mkFeat "S5" 2]

/-- Five collector records, the third missing free_bikes. -/
def c8Stations : List PropDict :=
  [mkStn "S1" 3, mkStn "S2" 4,
   [("name", PropVal.str "S3"), ("empty_slots", PropVal.num 2)],
   mkStn "S4" 1, mkStn "S5" 2]

/-- One frame pair for the aggregation claim: A moved from 3 to 5. -/
def c5Last : List LiveRow := [mkRow "A" 5]

def c5First : List LiveRow := [mkRow "A" 3]

/-- The merged row that pair produces. -/
def c5Row : MergedRow :=
  { station := PropVal.str "A", total_curr := 5, total_prev := 3,
    mouvement := 2, delta := 2 }

/-! Helper lemmas about the merge and the flux pipeline. -/

theorem mem_dedupKeysAux (x : PropVal) :
    ∀ (l seen : List PropVal), x ∈ dedupKeysAux l seen ↔ x ∈ l ∧ x ∉ seen := by
  intro l
  induction l with
  | nil => intro seen; simp [dedupKeysAux]
  | cons k t ih =>
    intro seen
    by_cases hk : k ∈ seen
    · simp only [dedupKeysAux, if_pos hk, ih, List.mem_cons]
      constructor
      · rintro ⟨hx, hs⟩; exact ⟨Or.inr hx, hs⟩
      · rintro ⟨hx | hx, hs⟩
        · exact absurd hk (hx ▸ hs)
        · exact ⟨hx, hs⟩
    · simp only [dedupKeysAux, if_neg hk, List.mem_cons, ih]
      by_cases hxk : x = k
      · subst hxk; simp [hk]
      · simp [hxk]

theorem mem_dedupKeys (x : PropVal) (l : List PropVal) : x ∈ dedupKeys l ↔ x ∈ l := by
  simp [dedupKeys, mem_dedupKeysAux]

theorem mergeBlock_fst {row : PropVal × Option Int × Option Int} {k : PropVal}
    {ls fs : List LiveRow} (h : row ∈ mergeBlock k ls fs) : row.1 = k := by
  rcases ls with _ | ⟨l0, ls2⟩
  · simp only [mergeBlock] at h
    obtain ⟨f, _, rfl⟩ := List.mem_map.mp h; rfl
  · rcases fs with _ | ⟨f0, fs2⟩
    · simp only [mergeBlock] at h
      obtain ⟨l, _, rfl⟩ := List.mem_map.mp h; rfl
    · simp only [mergeBlock] at h
      obtain ⟨l, _, hl⟩ := List.mem_flatMap.mp h
      obtain ⟨f, _, rfl⟩ := List.mem_map.mp hl; rfl

theorem mem_mergeBlock_both {k : PropVal} {ls fs : List LiveRow} {lr fr : LiveRow}
    (hl : lr ∈ ls) (hf : fr ∈ fs) :
    (k, some lr.total, some fr.total) ∈ mergeBlock k ls fs := by
  rcases ls with _ | ⟨l0, ls2⟩
  · exact absurd hl (List.not_mem_nil lr)
  · rcases fs with _ | ⟨f0, fs2⟩
    · exact absurd hf (List.not_mem_nil fr)
    · simp only [mergeBlock]
      exact List.mem_flatMap.mpr ⟨lr, hl, List.mem_map.mpr ⟨fr, hf, rfl⟩⟩

theorem mem_mergeBlock_left {k : PropVal} {ls : List LiveRow} {lr : LiveRow}
    (hl : lr ∈ ls) : (k, some lr.total, none) ∈ mergeBlock k ls [] := by
  rcases ls with _ | ⟨l0, ls2⟩
  · exact absurd hl (List.not_mem_nil lr)
  · simp only [mergeBlock]
    exact List.mem_map.mpr ⟨lr, hl, rfl⟩

theorem mem_mergeBlock_right {k : PropVal} {fs : List LiveRow} {fr : LiveRow}
    (hf : fr ∈ fs) : (k, none, some fr.total) ∈ mergeBlock k [] fs := by
  simp only [mergeBlock]
  exact List.mem_map.mpr ⟨fr, hf, rfl⟩

theorem mem_mergeOuter_of_mergeBlock {last_data first_data : List LiveRow} {k : PropVal}
    {row : PropVal × Option Int × Option Int}
    (hk : k ∈ last_data.map (fun r => r.station) ++ first_data.map (fun r => r.station))
    (hrow : row ∈ mergeBlock k (last_data.filter (fun r => decide (r.station = k)))
                               (first_data.filter (fun r => decide (r.station = k)))) :
    row ∈ mergeOuter last_data first_data := by
  unfold mergeOuter
  exact List.mem_flatMap.mpr ⟨k, (mem_dedupKeys k _).mpr hk, hrow⟩

theorem mergeOuter_fst_mem {last_data first_data : List LiveRow}
    {row : PropVal × Option Int × Option Int} (h : row ∈ mergeOuter last_data first_data) :
    row.1 ∈ last_data.map (fun r => r.station) ++ first_data.map (fun r => r.station) := by
  unfold mergeOuter at h
  obtain ⟨k, hk, hrow⟩ := List.mem_flatMap.mp h
  rw [mergeBlock_fst hrow]
  exact (mem_dedupKeys k _).mp hk

theorem computeMerged_mem_both {last_data first_data : List LiveRow} {lr fr : LiveRow}
    (hl : lr ∈ last_data) (hf : fr ∈ first_data) (hst : lr.station = fr.station) :
    ({ station := lr.station, total_curr := lr.total, total_prev := fr.total,
       mouvement := |lr.total - fr.total|, delta := lr.total - fr.total } : MergedRow)
      ∈ computeMerged last_data first_data := by
  have hls : lr ∈ last_data.filter (fun r => decide (r.station = lr.station)) :=
    List.mem_filter.mpr ⟨hl, by simp⟩
  have hfs : fr ∈ first_data.filter (fun r => decide (r.station = lr.station)) :=
    List.mem_filter.mpr ⟨hf, by simp [hst]⟩
  have hrow := mem_mergeOuter_of_mergeBlock
    (List.mem_append.mpr (Or.inl (List.mem_map.mpr ⟨lr, hl, rfl⟩)))
    (mem_mergeBlock_both hls hfs)
  exact List.mem_map.mpr ⟨(lr.station, some lr.total, some fr.total), hrow, rfl⟩

theorem computeMerged_mem_left {last_data first_data : List LiveRow} {lr : LiveRow}
    (hl : lr ∈ last_data) (habs : lr.station ∉ first_data.map (fun r => r.station)) :
    ({ station := lr.station, total_curr := lr.total, total_prev := 0,
       mouvement := |lr.total - 0|, delta := lr.total - 0 } : MergedRow)
      ∈ computeMerged last_data first_data := by
  have hls : lr ∈ last_data.filter (fun r => decide (r.station = lr.station)) :=
    List.mem_filter.mpr ⟨hl, by simp⟩
  have hfs : first_data.filter (fun r => decide (r.station = lr.station)) = [] := by
    rw [List.filter_eq_nil_iff]
    intro fr hfr heq
    exact habs (List.mem_map.mpr ⟨fr, hfr, of_decide_eq_true heq⟩)
  have hrow := mem_mergeOuter_of_mergeBlock
    (List.mem_append.mpr (Or.inl (List.mem_map.mpr ⟨lr, hl, rfl⟩)))
    (hfs ▸ mem_mergeBlock_left hls)
  exact List.mem_map.mpr ⟨(lr.station, some lr.total, none), hrow, rfl⟩

theorem computeMerged_mem_right {last_data first_data : List LiveRow} {fr : LiveRow}
    (hf : fr ∈ first_data) (habs : fr.station ∉ last_data.map (fun r => r.station)) :
    ({ station := fr.station, total_curr := 0, total_prev := fr.total,
       mouvement := |0 - fr.total|, delta := 0 - fr.total } : MergedRow)
      ∈ computeMerged last_data first_data := by
  have hfs : fr ∈ first_data.filter (fun r => decide (r.station = fr.station)) :=
    List.mem_filter.mpr ⟨hf, by simp⟩
  have hls : last_data.filter (fun r => decide (r.station = fr.station)) = [] := by
    rw [List.filter_eq_nil_iff]
    intro lr hlr heq
    exact habs (List.mem_map.mpr ⟨lr, hlr, of_decide_eq_true heq⟩)
  have hrow := mem_mergeOuter_of_mergeBlock
    (List.mem_append.mpr (Or.inr (List.mem_map.mpr ⟨fr, hf, rfl⟩)))
    (hls ▸ mem_mergeBlock_right hfs)
  exact List.mem_map.mpr ⟨(fr.station, none, some fr.total), hrow, rfl⟩

theorem computeMerged_shape {last_data first_data : List LiveRow} {m : MergedRow}
    (h : m ∈ computeMerged last_data first_data) :
    m.mouvement = |m.total_curr - m.total_prev| ∧ m.delta = m.total_curr - m.total_prev ∧
    m.station ∈ last_data.map (fun r => r.station) ++ first_data.map (fun r => r.station) := by
  unfold computeMerged at h
  obtain ⟨kv, hkv, rfl⟩ := List.mem_map.mp h
  exact ⟨rfl, rfl, mergeOuter_fst_mem hkv⟩

theorem mem_sortFluxDesc {f : FluxRow} {l : List FluxRow} :
    f ∈ sortFluxDesc l ↔ f ∈ l := by
  simp [sortFluxDesc]

theorem sortFluxDesc_perm (l : List FluxRow) : List.Perm (sortFluxDesc l) l :=
  (List.insertionSort fluxOrder l).reverse_perm.trans (List.perm_insertionSort fluxOrder l)

theorem mem_computeFluxFrom {last_data first_data : List LiveRow} {f : FluxRow} :
    f ∈ computeFluxFrom last_data first_data ↔
      ∃ m ∈ computeMerged last_data first_data, 0 < m.mouvement ∧ f = fluxRowOf m := by
  unfold computeFluxFrom
  by_cases hE : (List.filter (fun r => decide (r.mouvement > 0))
      (computeMerged last_data first_data)).isEmpty
  · rw [if_pos hE]
    rw [List.isEmpty_eq_true, List.filter_eq_nil_iff] at hE
    simp only [List.not_mem_nil, false_iff]
    rintro ⟨m, hm, hpos, rfl⟩
    exact hE m hm (by simpa using hpos)
  · rw [if_neg hE]
    rw [mem_sortFluxDesc]
    simp only [List.mem_map, List.mem_filter, decide_eq_true_eq, gt_iff_lt]
    constructor
    · rintro ⟨m, ⟨hm, hpos⟩, rfl⟩; exact ⟨m, hm, hpos, rfl⟩
    · rintro ⟨m, hm, hpos, rfl⟩; exact ⟨m, ⟨hm, hpos⟩, rfl⟩

theorem sum_map_filter_of_zero {α : Type} (p : α → Bool) (f : α → Int) :
    ∀ l : List α, (∀ x ∈ l, p x = false → f x = 0) →
      ((l.filter p).map f).sum = (l.map f).sum := by
  intro l
  induction l with
  | nil => intro _; rfl
  | cons a t ih =>
    intro h
    have ht : ∀ x ∈ t, p x = false → f x = 0 := fun x hx => h x (List.mem_cons_of_mem a hx)
    cases hpa : p a with
    | true => simp [List.filter_cons, hpa, ih ht]
    | false => simp [List.filter_cons, hpa, ih ht, h a (List.mem_cons_self a t) hpa]

/-! Helper lemmas for the two movement estimators. -/

theorem consecutive_deltas_sum :
    ∀ l : List Int, (consecutive_deltas l).sum = two_point_delta l := by
  intro l
  induction l with
  | nil => rfl
  | cons a t ih =>
    cases t with
    | nil => simp [consecutive_deltas, two_point_delta]
    | cons b t2 =>
      have h1 : (a :: b :: t2 : List Int).getLastD 0 = (b :: t2).getLastD 0 := by
        simp [List.getLastD_eq_getLast?, List.getLast?_cons_cons]
      simp only [consecutive_deltas, List.sum_cons, ih, two_point_delta, h1]
      simp only [List.headD_eq_head?_getD, List.head?_cons, Option.getD_some]
      omega

theorem abs_sum_le_sum_abs_int :
    ∀ l : List Int, |l.sum| ≤ (l.map (fun d => |d|)).sum := by
  intro l
  induction l with
  | nil => simp
  | cons a t ih =>
    simp only [List.sum_cons, List.map_cons]
    calc |a + t.sum| ≤ |a| + |t.sum| := abs_add a t.sum
    _ ≤ |a| + (t.map (fun d => |d|)).sum := by omega

theorem sum_int_nonneg {l : List Int} (h : ∀ x ∈ l, 0 ≤ x) : 0 ≤ l.sum := by
  induction l with
  | nil => simp
  | cons a t ih =>
    have := h a (List.mem_cons_self a t)
    have := ih (fun x hx => h x (List.mem_cons_of_mem a hx))
    simp only [List.sum_cons]; omega

theorem sum_int_nonpos {l : List Int} (h : ∀ x ∈ l, x ≤ 0) : l.sum ≤ 0 := by
  induction l with
  | nil => simp
  | cons a t ih =>
    have := h a (List.mem_cons_self a t)
    have := ih (fun x hx => h x (List.mem_cons_of_mem a hx))
    simp only [List.sum_cons]; omega

theorem sum_int_nonneg_eq_zero {l : List Int} (h : ∀ x ∈ l, 0 ≤ x) (hs : l.sum = 0) :
    ∀ x ∈ l, x = 0 := by
  induction l with
  | nil => simp
  | cons a t ih =>
    have ha := h a (List.mem_cons_self a t)
    have ht : ∀ x ∈ t, 0 ≤ x := fun x hx => h x (List.mem_cons_of_mem a hx)
    have hts : 0 ≤ t.sum := sum_int_nonneg ht
    simp only [List.sum_cons] at hs
    have ha0 : a = 0 := by omega
    have hts0 : t.sum = 0 := by omega
    intro x hx
    rcases List.mem_cons.mp hx with rfl | hx
    · exact ha0
    · exact ih ht hts0 x hx

theorem sum_int_nonpos_eq_zero {l : List Int} (h : ∀ x ∈ l, x ≤ 0) (hs : l.sum = 0) :
    ∀ x ∈ l, x = 0 := by
  induction l with
  | nil => simp
  | cons a t ih =>
    have ha := h a (List.mem_cons_self a t)
    have ht : ∀ x ∈ t, x ≤ 0 := fun x hx => h x (List.mem_cons_of_mem a hx)
    have hts : t.sum ≤ 0 := sum_int_nonpos ht
    simp only [List.sum_cons] at hs
    have ha0 : a = 0 := by omega
    have hts0 : t.sum = 0 := by omega
    intro x hx
    rcases List.mem_cons.mp hx with rfl | hx
    · exact ha0
    · exact ih ht hts0 x hx

theorem sum_map_abs_of_nonneg :
    ∀ l : List Int, (∀ x ∈ l, 0 ≤ x) → (l.map (fun d => |d|)).sum = l.sum := by
  intro l
  induction l with
  | nil => intro _; rfl
  | cons a t ih =>
    intro h
    simp only [List.map_cons, List.sum_cons,
      abs_of_nonneg (h a (List.mem_cons_self a t)),
      ih (fun x hx => h x (List.mem_cons_of_mem a hx))]

theorem sum_map_abs_of_nonpos :
    ∀ l : List Int, (∀ x ∈ l, x ≤ 0) → (l.map (fun d => |d|)).sum = -l.sum := by
  intro l
  induction l with
  | nil => intro _; rfl
  | cons a t ih =>
    intro h
    simp only [List.map_cons, List.sum_cons,
      abs_of_nonpos (h a (List.mem_cons_self a t)),
      ih (fun x hx => h x (List.mem_cons_of_mem a hx))]
    omega

theorem sum_abs_eq_abs_sum_iff :
    ∀ l : List Int, (l.map (fun d => |d|)).sum = |l.sum| ↔
      ((∀ x ∈ l, 0 ≤ x) ∨ (∀ x ∈ l, x ≤ 0)) := by
  intro l
  induction l with
  | nil => simp
  | cons a t ih =>
    simp only [List.map_cons, List.sum_cons]
    constructor
    · intro h
      have hle := abs_sum_le_sum_abs_int t
      have habs2 := abs_add a t.sum
      have hS : (t.map (fun d => |d|)).sum = |t.sum| := by omega
      have habs : |a + t.sum| = |a| + |t.sum| := by omega
      have hsign : (0 ≤ a ∧ 0 ≤ t.sum) ∨ (a ≤ 0 ∧ t.sum ≤ 0) := by
        rcases abs_cases a with ⟨h1, h2⟩ | ⟨h1, h2⟩ <;>
          rcases abs_cases t.sum with ⟨h3, h4⟩ | ⟨h3, h4⟩ <;>
            rcases abs_cases (a + t.sum) with ⟨h5, h6⟩ | ⟨h5, h6⟩ <;> omega
      rcases ih.mp hS with hpos | hneg
      · rcases hsign with ⟨ha, _⟩ | ⟨ha, hs⟩
        · left; intro x hx
          rcases List.mem_cons.mp hx with rfl | hx
          · exact ha
          · exact hpos x hx
        · have hs0 : t.sum = 0 := le_antisymm hs (sum_int_nonneg hpos)
          have hall0 := sum_int_nonneg_eq_zero hpos hs0
          right; intro x hx
          rcases List.mem_cons.mp hx with rfl | hx
          · exact ha
          · exact le_of_eq (hall0 x hx)
      · rcases hsign with ⟨ha, hs⟩ | ⟨ha, _⟩
        · have hs0 : t.sum = 0 := le_antisymm (sum_int_nonpos hneg) hs
          have hall0 := sum_int_nonpos_eq_zero hneg hs0
          left; intro x hx
          rcases List.mem_cons.mp hx with rfl | hx
          · exact ha
          · exact le_of_eq (hall0 x hx).symm
        · right; intro x hx
          rcases List.mem_cons.mp hx with rfl | hx
          · exact ha
          · exact hneg x hx
    · intro h
      rcases h with hpos | hneg
      · have ha := hpos a (List.mem_cons_self a t)
        have hts := sum_int_nonneg (fun x hx => hpos x (List.mem_cons_of_mem a hx))
        rw [sum_map_abs_of_nonneg t (fun x hx => hpos x (List.mem_cons_of_mem a hx)),
            abs_of_nonneg ha, abs_of_nonneg (by omega : (0 : Int) ≤ a + t.sum)]
      · have ha := hneg a (List.mem_cons_self a t)
        have hts := sum_int_nonpos (fun x hx => hneg x (List.mem_cons_of_mem a hx))
        rw [sum_map_abs_of_nonpos t (fun x hx => hneg x (List.mem_cons_of_mem a hx)),
            abs_of_nonpos ha, abs_of_nonpos (by omega : a + t.sum ≤ 0)]
        omega

theorem chain_le_iff_deltas_nonneg :
    ∀ l : List Int, l.Chain' (· ≤ ·) ↔ ∀ x ∈ consecutive_deltas l, 0 ≤ x := by
  intro l
  induction l with
  | nil => simp [consecutive_deltas]
  | cons a t ih =>
    cases t with
    | nil => simp [consecutive_deltas]
    | cons b t2 =>
      rw [List.chain'_cons]
      simp only [consecutive_deltas, List.mem_cons, ih]
      constructor
      · rintro ⟨hab, h⟩ x hx
        rcases hx with rfl | hx
        · omega
        · exact h x hx
      · intro h
        refine ⟨by have := h (b - a) (Or.inl rfl); omega, fun x hx => h x (Or.inr hx)⟩

theorem chain_ge_iff_deltas_nonpos :
    ∀ l : List Int, l.Chain' (fun a b => b ≤ a) ↔ ∀ x ∈ consecutive_deltas l, x ≤ 0 := by
  intro l
  induction l with
  | nil => simp [consecutive_deltas]
  | cons a t ih =>
    cases t with
    | nil => simp [consecutive_deltas]
    | cons b t2 =>
      rw [List.chain'_cons]
      simp only [consecutive_deltas, List.mem_cons, ih]
      constructor
      · rintro ⟨hab, h⟩ x hx
        rcases hx with rfl | hx
        · omega
        · exact h x hx
      · intro h
        refine ⟨by have := h (b - a) (Or.inl rfl); omega, fun x hx => h x (Or.inr hx)⟩

/-! The claims. -/

/-- C4: for any ordered snapshot sequence, the persisted-variant
movement (sum of absolute consecutive differences) is at least the
two-point magnitude, with equality exactly when the sequence is
monotone, and the sequence 10, 7, 12 yields 8 against a two-point
magnitude of 2. -/
theorem C4_consecutive_vs_two_point :
    (∀ l : List Int, two_point_magnitude l ≤ movement_persisted l) ∧
    (∀ l : List Int, movement_persisted l = two_point_magnitude l ↔
      (l.Chain' (· ≤ ·) ∨ l.Chain' (fun a b => b ≤ a))) ∧
    movement_persisted [10, 7, 12] = 8 ∧ two_point_magnitude [10, 7, 12] = 2 := by
  refine ⟨?_, ?_, by decide, by decide⟩
  · intro l
    have h1 := abs_sum_le_sum_abs_int (consecutive_deltas l)
    rw [consecutive_deltas_sum] at h1
    simpa [two_point_magnitude, movement_persisted] using h1
  · intro l
    simp only [movement_persisted, two_point_magnitude, ← consecutive_deltas_sum]
    rw [sum_abs_eq_abs_sum_iff, chain_le_iff_deltas_nonneg, chain_ge_iff_deltas_nonpos]

/-- Witness for C4: on the monotone sequence 1, 3, 7 the two estimators
agree. -/
theorem C4_consecutive_vs_two_point_witness :
    List.Chain' (· ≤ ·) ([1, 3, 7] : List Int) ∧
    movement_persisted [1, 3, 7] = two_point_magnitude [1, 3, 7] :=
  have hc : List.Chain' (· ≤ ·) ([1, 3, 7] : List Int) :=
    List.Chain.cons (by omega) (List.Chain.cons (by omega) List.Chain.nil)
  ⟨hc, (C4_consecutive_vs_two_point.2.1 [1, 3, 7]).mpr (Or.inl hc)⟩

/-- C9: a failed fetch (unreachable, non-2xx, or unparsable body) makes
the dashboard data acquisition return the empty frame instead of
raising, and makes the collector leave the database untouched and
finish its cycle. -/
theorem C9_fetch_failure_degradation :
    ∀ (e : FetchErr) (now : Int) (db : List HistRow),
      get_live_data (Except.error e) = [] ∧ save_data now db (Except.error e) = db := by
  intro e now db
  exact ⟨rfl, rfl⟩

/-- C10: the fleet occupancy metric is always defined, and is 0 by the
guard when total bikes plus total slots is 0, so the division is never
evaluated at denominator 0. -/
theorem C10_occupancy_guard :
    ∀ df : List LiveRow, (occupancy df).isSome = true ∧
      (total_bikes df + total_slots df = 0 → occupancy df = some 0) := by
  intro df
  by_cases h : total_bikes df + total_slots df > 0
  · constructor
    · rw [occupancy, if_pos h]
      have hne : ((total_bikes df : ℚ) + (total_slots df : ℚ)) ≠ 0 := by
        have h2 : ((total_bikes df + total_slots df : Int) : ℚ) ≠ 0 :=
          Int.cast_ne_zero.mpr (by omega)
        push_cast at h2
        exact h2
      rw [checkedDiv, if_neg hne]
      rfl
    · intro h0
      omega
  · constructor
    · rw [occupancy, if_neg h]
      rfl
    · intro _
      rw [occupancy, if_neg h]

/-- Witness for C10: the empty frame has zero bikes and slots and gets
occupancy 0. -/
theorem C10_occupancy_guard_witness :
    (total_bikes [] + total_slots [] = 0) ∧ occupancy [] = some 0 :=
  ⟨by decide, (C10_occupancy_guard []).2 (by decide)⟩

theorem calculate_realtime_flux_snd (now : Int) (history : List HistEntry)
    (cur : List LiveRow) :
    (calculate_realtime_flux now history cur).snd =
      pruneHistory now (history ++ [{ timestamp := now, data := cur }]) := by
  simp only [calculate_realtime_flux]
  by_cases h : (pruneHistory now (history ++ [{ timestamp := now, data := cur }])).length < 2 <;>
    simp [h]

/-- C7: a history entry at least one horizon older than the read time is
absent from the window state a read leaves behind, and an entry pruned
once can never reappear in any later pruning of that state. -/
theorem C7_window_pruning :
    (∀ (now : Int) (history : List HistEntry) (cur : List LiveRow) (e : HistEntry),
        e.timestamp ≤ now - 60 → e ∉ (calculate_realtime_flux now history cur).snd) ∧
    (∀ (now now2 : Int) (history : List HistEntry) (e : HistEntry),
        e ∉ pruneHistory now history →
        e ∉ pruneHistory now2 (pruneHistory now history)) := by
  constructor
  · intro now history cur e hts hmem
    rw [calculate_realtime_flux_snd] at hmem
    simp only [pruneHistory, List.mem_filter, decide_eq_true_eq] at hmem
    omega
  · intro now now2 history e hnot hmem
    simp only [pruneHistory, List.mem_filter] at hmem hnot
    exact hnot ⟨hmem.1.1, hmem.1.2⟩

/-- Witness for C7: an entry collected 61 minutes before a read at time
100 is outside the window of that read and of any later one. -/
theorem C7_window_pruning_witness :
    (c7Entry.timestamp ≤ 100 - 60) ∧
    c7Entry ∉ (calculate_realtime_flux 100 [c7Entry, { timestamp := 50, data := [] }] []).snd ∧
    c7Entry ∉ pruneHistory 100 [c7Entry] ∧
    c7Entry ∉ pruneHistory 161 (pruneHistory 100 [c7Entry]) :=
  ⟨by decide,
   C7_window_pruning.1 100 [c7Entry, { timestamp := 50, data := [] }] [] c7Entry (by decide),
   by decide,
   C7_window_pruning.2 100 161 [c7Entry] c7Entry (by decide)⟩

/-- C2: the flux a read returns is a function of the pruned window state
alone, and that function depends only on the sequence of snapshot
frames in the window, not on any of the wall-clock timestamps; hence
identical windows give identical movement records on every call. -/
theorem C2_determinism :
    (∀ (now : Int) (history : List HistEntry) (cur : List LiveRow),
        (calculate_realtime_flux now history cur).fst =
          fluxOfWindow (calculate_realtime_flux now history cur).snd) ∧
    (∀ w1 w2 : List HistEntry, w1.map (fun h => h.data) = w2.map (fun h => h.data) →
        fluxOfWindow w1 = fluxOfWindow w2) := by
  constructor
  · intro now history cur
    simp only [calculate_realtime_flux, fluxOfWindow]
    by_cases h : (pruneHistory now (history ++ [{ timestamp := now, data := cur }])).length < 2 <;>
      simp [h]
  · intro w1 w2 hdata
    have hlen : w1.length = w2.length := by
      have h2 := congrArg List.length hdata
      simpa using h2
    have hlast : (w1.getLastD { timestamp := 0, data := [] }).data =
        (w2.getLastD { timestamp := 0, data := [] }).data := by
      have e1 := congrArg List.getLast? hdata
      rw [List.getLast?_map, List.getLast?_map] at e1
      cases hw1 : w1.getLast? with
      | none =>
        cases hw2 : w2.getLast? with
        | none => simp [List.getLastD_eq_getLast?, hw1, hw2]
        | some b => rw [hw1, hw2] at e1; simp at e1
      | some a =>
        cases hw2 : w2.getLast? with
        | none => rw [hw1, hw2] at e1; simp at e1
        | some b =>
          rw [hw1, hw2] at e1
          have hab : a.data = b.data := by simpa using e1
          simp [List.getLastD_eq_getLast?, hw1, hw2, hab]
    have hhead : (w1.headD { timestamp := 0, data := [] }).data =
        (w2.headD { timestamp := 0, data := [] }).data := by
      have e1 := congrArg List.head? hdata
      rw [List.head?_map, List.head?_map] at e1
      cases hw1 : w1.head? with
      | none =>
        cases hw2 : w2.head? with
        | none => simp [List.headD_eq_head?_getD, hw1, hw2]
        | some b => rw [hw1, hw2] at e1; simp at e1
      | some a =>
        cases hw2 : w2.head? with
        | none => rw [hw1, hw2] at e1; simp at e1
        | some b =>
          rw [hw1, hw2] at e1
          have hab : a.data = b.data := by simpa using e1
          simp [List.headD_eq_head?_getD, hw1, hw2, hab]
    rw [fluxOfWindow, fluxOfWindow, hlen, hlast, hhead]

/-- Witness for C2: two windows with the same snapshot frames under
shifted clocks give the same flux. -/
theorem C2_determinism_witness :
    (c2W1.map (fun h => h.data) = c2W2.map (fun h => h.data)) ∧
    fluxOfWindow c2W1 = fluxOfWindow c2W2 :=
  ⟨by decide, C2_determinism.2 c2W1 c2W2 (by decide)⟩

theorem mapM_except_error {α β : Type} (f : α → Except Unit β) :
    ∀ l : List α, (∃ a ∈ l, f a = Except.error ()) → l.mapM f = Except.error () := by
  intro l
  induction l with
  | nil =>
    rintro ⟨a, ha, _⟩
    exact absurd ha (List.not_mem_nil a)
  | cons a t ih =>
    rintro ⟨x, hx, hfx⟩
    rw [List.mapM_cons]
    rcases List.mem_cons.mp hx with rfl | hx
    · rw [hfx]; rfl
    · cases hfa : f a with
      | error e => cases e; rfl
      | ok b =>
        rw [ih ⟨x, hx, hfx⟩]
        rfl

theorem rowOfStation_error {now : Int} {s : PropDict}
    (h : s.getKey "free_bikes" = Except.error ()) :
    rowOfStation now s = Except.error () := by
  unfold rowOfStation
  cases hname : s.getKey "name" with
  | error e => cases e; rfl
  | ok v =>
    simp only [h]
    rfl

/-- C8 counterexample: a batch of five collector records in which one
record is missing free_bikes persists nothing at all: the whole batch is
dropped, not just the malformed record, so the result is empty rather
than four valid rows plus a defaulted one. -/
theorem C8_counterexample :
    save_data 0 [] (Except.ok c8Stations) = [] ∧ c8Stations.length = 5 := by
  constructor
  · rfl
  · rfl

/-- C8 amended: the dashboard parser substitutes 0 for a missing numeric
field and keeps the rest of the batch, but a record missing free_bikes
makes the collector drop the whole batch (nothing is committed), and a
non-numeric value makes the dashboard parser drop the whole batch. -/
theorem C8_malformed_records :
    (∀ (now : Int) (db : List HistRow) (stations : List PropDict),
        (∃ s ∈ stations, s.getKey "free_bikes" = Except.error ()) →
        save_data now db (Except.ok stations) = db) ∧
    ((get_live_data (Except.ok c8Features)).map (fun r => (r.station, r.total)) =
      [(PropVal.str "S1", 3), (PropVal.str "S2", 4), (PropVal.str "S3", 0),
       (PropVal.str "S4", 1), (PropVal.str "S5", 2)]) ∧
    (get_live_data (Except.ok c8BadFeatures) = []) := by
  refine ⟨?_, by decide, by decide⟩
  rintro now db stations ⟨s, hs, herr⟩
  have hmap : stations.mapM (rowOfStation now) = Except.error () :=
    mapM_except_error _ _ ⟨s, hs, rowOfStation_error herr⟩
  show (match stations.mapM (rowOfStation now) with
        | Except.ok rows => db ++ rows
        | Except.error _ => db) = db
  rw [hmap]

/-- Witness for C8: the five-record batch with a missing free_bikes
leaves a nonempty database exactly as it was. -/
theorem C8_malformed_records_witness :
    (∃ s ∈ c8Stations, s.getKey "free_bikes" = Except.error ()) ∧
    save_data 7 [{ timestamp := 0, station_name := PropVal.str "X",
                   free_bikes := PropVal.num 1, empty_slots := PropVal.num 2 }]
        (Except.ok c8Stations) =
      [{ timestamp := 0, station_name := PropVal.str "X",
         free_bikes := PropVal.num 1, empty_slots := PropVal.num 2 }] :=
  have hex : ∃ s ∈ c8Stations, s.getKey "free_bikes" = Except.error () :=
    ⟨[("name", PropVal.str "S3"), ("empty_slots", PropVal.num 2)], by decide, rfl⟩
  ⟨hex,
   C8_malformed_records.1 7
     [{ timestamp := 0, station_name := PropVal.str "X",
        free_bikes := PropVal.num 1, empty_slots := PropVal.num 2 }]
     c8Stations hex⟩

/-- C1 counterexample: station A has two snapshots in the window (counts
10 then 7) but is absent from the latest batch; its record uses the
batch default 0 as bikes_after and magnitude 10, not the bike count 7 of
its own latest snapshot and magnitude 3 as the claim requires. -/
theorem C1_counterexample :
    ((calculate_realtime_flux 100 c1BadHist c1BadCur).fst.filter
        (fun r => decide (r.station = PropVal.str "A"))).map
        (fun r => (r.total_curr, r.mouvement)) = [(0, 10)] ∧
    ((0 : Int), (10 : Int)) ≠ ((7 : Int), (3 : Int)) := by
  constructor
  · rfl
  · decide

/-- C1 amended: the two-point comparison uses the earliest and latest
batches of the window, not the per-station earliest and latest
snapshots: a station present in both boundary batches gets
bikes_before and bikes_after from them with net_delta and magnitude as
claimed, and a station missing from one boundary batch is defaulted to
count 0 there; on the spec example window (10, 7, 12 for station A)
this yields net delta +2 and magnitude 2, ignoring the dip to 7. -/
theorem C1_two_point_boundary_batches :
    (∀ (last_data first_data : List LiveRow) (lr fr : LiveRow),
        lr ∈ last_data → fr ∈ first_data → lr.station = fr.station →
        ({ station := lr.station, total_curr := lr.total, total_prev := fr.total,
           mouvement := |lr.total - fr.total|, delta := lr.total - fr.total } : MergedRow)
          ∈ computeMerged last_data first_data) ∧
    (∀ (last_data first_data : List LiveRow) (lr : LiveRow),
        lr ∈ last_data → lr.station ∉ first_data.map (fun r => r.station) →
        ({ station := lr.station, total_curr := lr.total, total_prev := 0,
           mouvement := |lr.total - 0|, delta := lr.total - 0 } : MergedRow)
          ∈ computeMerged last_data first_data) ∧
    (∀ (last_data first_data : List LiveRow) (fr : LiveRow),
        fr ∈ first_data → fr.station ∉ last_data.map (fun r => r.station) →
        ({ station := fr.station, total_curr := 0, total_prev := fr.total,
           mouvement := |0 - fr.total|, delta := 0 - fr.total } : MergedRow)
          ∈ computeMerged last_data first_data) ∧
    (calculate_realtime_flux 120 c1Hist c1Cur).fst =
      [{ station := PropVal.str "A", type := "📤 Dépôt", mouvement := 2,
         total_prev := 10, total_curr := 12, delta := 2 }] :=
  ⟨fun _ _ _ _ => computeMerged_mem_both, fun _ _ _ => computeMerged_mem_left,
   fun _ _ _ => computeMerged_mem_right, by rfl⟩

/-- Witness for C1: a one-station window where the station is in both
boundary batches. -/
theorem C1_two_point_boundary_batches_witness :
    (mkRow "A" 12 ∈ [mkRow "A" 12]) ∧ (mkRow "A" 10 ∈ [mkRow "A" 10]) ∧
    ((mkRow "A" 12).station = (mkRow "A" 10).station) ∧
    ({ station := (mkRow "A" 12).station, total_curr := (mkRow "A" 12).total,
       total_prev := (mkRow "A" 10).total,
       mouvement := |(mkRow "A" 12).total - (mkRow "A" 10).total|,
       delta := (mkRow "A" 12).total - (mkRow "A" 10).total } : MergedRow)
      ∈ computeMerged [mkRow "A" 12] [mkRow "A" 10] :=
  ⟨by decide, by decide, by decide,
   C1_two_point_boundary_batches.1 [mkRow "A" 12] [mkRow "A" 10]
     (mkRow "A" 12) (mkRow "A" 10) (by decide) (by decide) (by decide)⟩

/-- C3 counterexample: in a two-batch window where station A appears
only in the latest batch (one snapshot), the estimator still emits a
movement record for A, with magnitude 5 against the implicit previous
count 0. -/
theorem C3_counterexample :
    (calculate_realtime_flux 100 c3Hist c3Cur).fst.map (fun r => (r.station, r.mouvement)) =
      [(PropVal.str "A", 5)] ∧
    ((c3Hist ++ [({ timestamp := 100, data := c3Cur } : HistEntry)]).map
        (fun h => (h.data.filter (fun r => decide (r.station = PropVal.str "A"))).length)).sum
      = 1 := by
  constructor
  · rfl
  · rfl

/-- C3 amended: nothing at all is emitted only when the window holds
fewer than two batches; with two or more batches a station missing from
the boundary batches is defaulted there, and only a station absent from
both boundary batches is guaranteed to get no record. -/
theorem C3_insufficient_history :
    (∀ (now : Int) (history : List HistEntry) (cur : List LiveRow),
        (pruneHistory now (history ++ [{ timestamp := now, data := cur }])).length < 2 →
        (calculate_realtime_flux now history cur).fst = []) ∧
    (∀ (last_data first_data : List LiveRow) (st : PropVal),
        st ∉ last_data.map (fun r => r.station) → st ∉ first_data.map (fun r => r.station) →
        ∀ f ∈ computeFluxFrom last_data first_data, f.station ≠ st) := by
  constructor
  · intro now history cur h
    simp only [calculate_realtime_flux]
    rw [if_pos h]
  · intro last_data first_data st hl hf f hmem heq
    obtain ⟨m, hm, _, rfl⟩ := mem_computeFluxFrom.mp hmem
    obtain ⟨_, _, hst⟩ := computeMerged_shape hm
    rcases List.mem_append.mp hst with hmem2 | hmem2
    · exact hl (heq ▸ hmem2)
    · exact hf (heq ▸ hmem2)

/-- Witness for C3: a one-batch window gives no records, and a station
in neither boundary batch gets none. -/
theorem C3_insufficient_history_witness :
    ((pruneHistory 100 ([] ++ [{ timestamp := 100, data := [mkRow "A" 5] }])).length < 2) ∧
    (calculate_realtime_flux 100 [] [mkRow "A" 5]).fst = [] ∧
    (PropVal.str "Z" ∉ [mkRow "A" 5].map (fun r => r.station)) ∧
    (∀ f ∈ computeFluxFrom [mkRow "A" 5] [mkRow "A" 3], f.station ≠ PropVal.str "Z") :=
  ⟨by decide, C3_insufficient_history.1 100 [] [mkRow "A" 5] (by decide), by decide,
   C3_insufficient_history.2 [mkRow "A" 5] [mkRow "A" 3] (PropVal.str "Z")
     (by decide) (by decide)⟩

/-- C5: movement magnitudes are never negative, every row of the
returned flux frame has nonzero magnitude (zero-magnitude stations are
excluded), and the total magnitude over the returned ranking equals the
sum of the magnitudes over all merged stations, the excluded
zero-magnitude rows contributing 0. -/
theorem C5_zero_excluded_totals :
    ∀ (last_data first_data : List LiveRow),
      (∀ m ∈ computeMerged last_data first_data, 0 ≤ m.mouvement) ∧
      (∀ f ∈ computeFluxFrom last_data first_data, f.mouvement ≠ 0) ∧
      total_mouvements (computeFluxFrom last_data first_data) =
        ((computeMerged last_data first_data).map (fun r => r.mouvement)).sum := by
  intro last_data first_data
  have hzero : ∀ m ∈ computeMerged last_data first_data,
      (fun r : MergedRow => decide (r.mouvement > 0)) m = false → m.mouvement = 0 := by
    intro m hm hfalse
    obtain ⟨h1, _, _⟩ := computeMerged_shape hm
    have h2 : ¬ m.mouvement > 0 := by simpa using hfalse
    have h3 : 0 ≤ m.mouvement := h1 ▸ abs_nonneg _
    omega
  refine ⟨?_, ?_, ?_⟩
  · intro m hm
    obtain ⟨h1, _, _⟩ := computeMerged_shape hm
    rw [h1]
    exact abs_nonneg _
  · intro f hf
    obtain ⟨m, hm, hpos, rfl⟩ := mem_computeFluxFrom.mp hf
    simp only [fluxRowOf]
    omega
  · rw [total_mouvements]
    unfold computeFluxFrom
    by_cases hE : (List.filter (fun r => decide (r.mouvement > 0))
        (computeMerged last_data first_data)).isEmpty
    · rw [if_pos hE]
      have hfe : List.filter (fun r => decide (r.mouvement > 0))
          (computeMerged last_data first_data) = [] := List.isEmpty_eq_true.mp hE
      have hsum := sum_map_filter_of_zero (fun r : MergedRow => decide (r.mouvement > 0))
        (fun r => r.mouvement) (computeMerged last_data first_data) hzero
      rw [hfe] at hsum
      simpa using hsum
    · rw [if_neg hE]
      have hperm := (sortFluxDesc_perm ((List.filter (fun r => decide (r.mouvement > 0))
          (computeMerged last_data first_data)).map fluxRowOf)).map
        (fun r : FluxRow => r.mouvement)
      rw [hperm.sum_eq, List.map_map]
      have hcomp : ((fun r : FluxRow => r.mouvement) ∘ fluxRowOf) =
          fun m : MergedRow => m.mouvement := rfl
      rw [hcomp]
      exact sum_map_filter_of_zero _ _ _ hzero

/-- Witness for C5: the one-station frame pair where A moved from 3
to 5. -/
theorem C5_zero_excluded_totals_witness :
    (c5Row ∈ computeMerged c5Last c5First) ∧
    (0 : Int) ≤ c5Row.mouvement ∧
    (fluxRowOf c5Row ∈ computeFluxFrom c5Last c5First) ∧
    (fluxRowOf c5Row).mouvement ≠ 0 ∧
    total_mouvements (computeFluxFrom c5Last c5First) =
      ((computeMerged c5Last c5First).map (fun r => r.mouvement)).sum :=
  ⟨by decide,
   (C5_zero_excluded_totals c5Last c5First).1 _ (by decide),
   by decide,
   (C5_zero_excluded_totals c5Last c5First).2.1 _ (by decide),
   (C5_zero_excluded_totals c5Last c5First).2.2⟩

/-- C6 counterexample: with magnitudes 5, 5, 3 for stations A, B, C in
that insertion order, the returned ranking is B, A, C: the tied pair
comes out reversed, so A is not placed before B. -/
theorem C6_counterexample :
    ¬ List.Sublist [PropVal.str "A", PropVal.str "B"]
        ((calculate_realtime_flux 100 c6Hist c6Cur).fst.map (fun r => r.station)) ∧
    ((calculate_realtime_flux 100 c6Hist c6Cur).fst.map (fun r => (r.station, r.mouvement)) =
      [(PropVal.str "B", 5), (PropVal.str "A", 5), (PropVal.str "C", 3)]) := by
  constructor
  · decide
  · rfl

/-- C6 amended: the ranking is sorted by movement magnitude descending
and is a permutation of the filtered rows, but the stable tie-break
preserving original station order does not hold: on the 5, 5, 3 example
for stations A, B, C in that insertion order the returned ranking is
B, A, C, placing B before A.  Only these order-insensitive properties
and the small concrete instance are concluded: on large frames the
program ties break by an unstable quicksort argsort, whose tie order
this development leaves unspecified. -/
theorem C6_ranking_descending :
    (∀ rows : List FluxRow,
        (sortFluxDesc rows).Pairwise (fun a b => b.mouvement ≤ a.mouvement)) ∧
    (∀ rows : List FluxRow, List.Perm (sortFluxDesc rows) rows) ∧
    (calculate_realtime_flux 100 c6Hist c6Cur).fst.map (fun r => r.station) =
      [PropVal.str "B", PropVal.str "A", PropVal.str "C"] := by
  refine ⟨?_, sortFluxDesc_perm, by rfl⟩
  intro rows
  have hs := List.sorted_insertionSort fluxOrder rows
  rw [sortFluxDesc, List.pairwise_reverse]
  exact hs
